import Mathlib

/-
Verification of the deal-lifecycle simulation engine of the synthetic
sales-data generator.  The definitions below are a shallow embedding of
the two Python source files:

  case_study_synthetic_sales_data_generator.py  (class GlobalSalesDataGenerator)
  salesforce_mimic_opp_creation.py              (class SalesforceDataGenerator)

Modelling conventions:
  * Calendar timestamps that only ever take part in whole-day arithmetic
    are modelled as integers (days since 1970-01-01).  The hard-coded
    simulation current date datetime(2025, 9, 13) is day 20344.
  * Python float literals such as 0.75 or 0.2 are modelled by the exact
    rationals they denote in the source text.  The difference between
    IEEE-754 rounding and exact rational arithmetic can shift a derived
    integer by one in rare corner cases; every concrete counterexample
    below was chosen so that the float computation and the rational
    computation agree, and was re-traced against Python semantics.
  * Randomness is made explicit: the per-stage uniform draws are an
    input stream u with values in the unit interval, and the per-stage
    date jitters are an input stream j of integers.  A theorem that
    quantifies over all streams in particular covers every stream the
    Python random module can produce.
  * Stages are indexed 0..6 in pipeline order:
      0 = 1 - Lead Qualification, 1 = 2 - Discovery, 2 = 3 - Proposal,
      3 = 4 - Negotiation, 4 = 5 - Contract Review,
      5 = 6 - Closed Lost, 6 = 7 - Closed Won.
-/

/-- Truncation toward zero, the semantics of the Python int() conversion
applied to a (here: rational) number. -/
def pyInt (q : ℚ) : ℤ :=
  q.num.sign * (q.num.natAbs / q.den : ℕ)

/-- The hard-coded simulation current date datetime(2025, 9, 13),
as a day number (days since 1970-01-01). -/
def currentTime : ℤ := 20344

/-- The three deal-size segments. -/
inductive Segment
  | enterprise
  | midMarket
  | smb
deriving DecidableEq

/-- One behavioral configuration: the fields of the per-segment dictionaries
self.segments, self.competitive_segments and self.non_icp_segments that the
lifecycle engine reads. -/
structure DealConfig where
  avg_cycle_days : ℤ
  win_rate : ℚ
  stage_conversion_rates : List ℚ
deriving DecidableEq

/-- self.segments: baseline configuration per segment. -/
def segments : Segment → DealConfig
  | .enterprise => ⟨180, 3/10, [4/5, 7/10, 3/5, 3/4, 17/20]⟩
  | .midMarket => ⟨90, 9/20, [3/4, 13/20, 7/10, 4/5, 17/20]⟩
  | .smb => ⟨45, 3/5, [7/10, 3/4, 3/4, 17/20, 9/10]⟩

/-- self.competitive_segments: configuration for competitive deals. -/
def competitive_segments : Segment → DealConfig
  | .enterprise => ⟨240, 1/5, [3/4, 13/20, 1/2, 11/20, 3/4]⟩
  | .midMarket => ⟨135, 1/4, [7/10, 3/5, 4/5, 1/20, 9/10]⟩
  | .smb => ⟨65, 2/5, [13/20, 7/10, 3/5, 3/4, 17/20]⟩

/-- self.non_icp_segments: configuration for deals outside the ideal
customer profile. -/
def non_icp_segments : Segment → DealConfig
  | .enterprise => ⟨280, 3/20, [3/4, 3/20, 13/20, 7/10, 4/5]⟩
  | .midMarket => ⟨110, 7/20, [7/10, 1/2, 13/20, 3/4, 17/20]⟩
  | .smb => ⟨55, 11/20, [13/20, 7/10, 7/10, 4/5, 17/20]⟩

/-- The classification tag attached to the chosen configuration
(the config_type string of the source). -/
inductive ConfigType
  | base
  | competitive
  | nonICP
deriving DecidableEq

/-- get_deal_configuration: the if/elif/else chain of the source, which
picks the behavioral configuration and its classification tag. -/
def get_deal_configuration (seg : Segment) (is_competitive is_icp : Bool) :
    DealConfig × ConfigType :=
  if seg = .enterprise ∧ is_icp = false then (non_icp_segments seg, .nonICP)
  else if is_competitive = true then (competitive_segments seg, .competitive)
  else (segments seg, .base)

/-- The table a classification tag selects, per segment. -/
def configTable (ct : ConfigType) (seg : Segment) : DealConfig :=
  match ct with
  | .nonICP => non_icp_segments seg
  | .competitive => competitive_segments seg
  | .base => segments seg

/-- Modelled from the spec wording for the classification priority: an
ordered rule list, evaluated top-down, whose first matching rule decides
the classification.  Rule 1 is the segment-specific worst case (non-ICP
for Enterprise), rule 2 is competitive, rule 3 is the baseline default. -/
def priorityRules : List ((Segment × Bool × Bool → Bool) × ConfigType) :=
  [(fun x => decide (x.1 = .enterprise) && !x.2.2, .nonICP),
   (fun x => x.2.1, .competitive),
   (fun _ => true, .base)]

/-- Modelled from the spec wording: evaluate the ordered rule list
top-down and return the classification of the first rule that fires. -/
def classifyByPriority (seg : Segment) (is_competitive is_icp : Bool) :
    ConfigType :=
  (priorityRules.find? (fun r => r.1 (seg, is_competitive, is_icp))).elim
    .base (fun r => r.2)

/-- C6: for every (segment, is_competitive, is_icp) input the resolver
returns exactly the classification selected by the ordered priority rule
list (worst case before competitive before baseline), paired with the
configuration table registered for that classification. -/
theorem C6_configuration_priority (seg : Segment) (is_competitive is_icp : Bool) :
    get_deal_configuration seg is_competitive is_icp =
      (configTable (classifyByPriority seg is_competitive is_icp) seg,
       classifyByPriority seg is_competitive is_icp) := by
  cases seg <;> cases is_competitive <;> cases is_icp <;> rfl

/-- The loop of determine_deal_outcome_and_highest_stage.  The arguments
i and idx mirror the loop counter of the enumerate and the mutable
current_stage_index of the source; the stream u supplies the successive
random.random() draws.  A draw below the conversion rate advances the
deal and continues; otherwise the loop returns the closed-lost flag
together with the index of the stage the deal was in when it failed to
advance.  If every rate passes, the source returns closed-won with the
hard-coded label 5 - Contract Review, stage index 4. -/
def outcomeGo : List ℚ → (ℕ → ℚ) → ℕ → ℕ → Bool × ℕ
  | [], _, _, _ => (true, 4)
  | r :: rs, u, i, idx =>
      if u i < r then outcomeGo rs u (i + 1) (i + 1) else (false, idx)

/-- determine_deal_outcome_and_highest_stage: walk the configured
stage_conversion_rates from stage 0 with both counters at 0.  The Bool
is true for closed-won, false for closed-lost; the second component is
the highest stage reached (index into the five non-terminal stages). -/
def determine_deal_outcome_and_highest_stage (seg : Segment)
    (is_competitive is_icp : Bool) (u : ℕ → ℚ) : Bool × ℕ :=
  outcomeGo (get_deal_configuration seg is_competitive is_icp).1.stage_conversion_rates
    u 0 0

lemma outcomeGo_allPass (rs : List ℚ) (u : ℕ → ℚ) :
    ∀ i idx, (∀ m, m < rs.length → u (i + m) < rs.getD m 0) →
      outcomeGo rs u i idx = (true, 4) := by
  induction rs with
  | nil => intro i idx _; rfl
  | cons r rs ih =>
      intro i idx hall
      have h0 : u i < r := by simpa using hall 0 (Nat.succ_pos _)
      simp only [outcomeGo, if_pos h0]
      exact ih (i + 1) (i + 1) (fun m hm => by
        have := hall (m + 1) (by simpa using Nat.succ_lt_succ hm)
        simpa [Nat.add_assoc, Nat.add_comm 1 m] using this)

lemma outcomeGo_firstFail (rs : List ℚ) (u : ℕ → ℚ) :
    ∀ i k, k < rs.length → (∀ m, m < k → u (i + m) < rs.getD m 0) →
      ¬ u (i + k) < rs.getD k 0 →
      outcomeGo rs u i i = (false, i + k) := by
  induction rs with
  | nil => intro i k hk; exact absurd hk (Nat.not_lt_zero k)
  | cons r rs ih =>
      intro i k hk hall hfail
      cases k with
      | zero =>
          have : ¬ u i < r := by simpa using hfail
          simp [outcomeGo, this]
      | succ k =>
          have h0 : u i < r := by simpa using hall 0 (Nat.succ_pos _)
          simp only [outcomeGo, if_pos h0]
          have hrec := ih (i + 1) k (Nat.lt_of_succ_lt_succ (by simpa using hk))
            (fun m hm => by
              have := hall (m + 1) (Nat.succ_lt_succ hm)
              simpa [Nat.add_assoc, Nat.add_comm 1 m] using this)
            (by
              have : i + 1 + k = i + (k + 1) := by omega
              rw [this]
              simpa using hfail)
          rw [hrec]
          have : i + 1 + k = i + (k + 1) := by omega
          rw [this]

lemma outcomeGo_cases (rs : List ℚ) (u : ℕ → ℚ) :
    ∀ i, outcomeGo rs u i i = (true, 4) ∨
      ∃ k, k < rs.length ∧ outcomeGo rs u i i = (false, i + k) := by
  induction rs with
  | nil => intro i; exact Or.inl rfl
  | cons r rs ih =>
      intro i
      by_cases h : u i < r
      · simp only [outcomeGo, if_pos h]
        rcases ih (i + 1) with hwin | ⟨k, hk, hlost⟩
        · exact Or.inl hwin
        · exact Or.inr ⟨k + 1, by simpa using Nat.succ_lt_succ hk,
            by rw [hlost]; congr 1; omega⟩
      · exact Or.inr ⟨0, Nat.succ_pos _, by simp [outcomeGo, h]⟩

/-- Every configured stage_conversion_rates list has exactly five
entries, one per non-terminal stage. -/
lemma rates_length (seg : Segment) (is_competitive is_icp : Bool) :
    (get_deal_configuration seg is_competitive is_icp).1.stage_conversion_rates.length
      = 5 := by
  cases seg <;> cases is_competitive <;> cases is_icp <;> rfl

/-- The highest stage reached reported by the outcome simulator is always
one of the five non-terminal stage indices 0..4. -/
lemma outcome_highest_le (seg : Segment) (is_competitive is_icp : Bool)
    (u : ℕ → ℚ) :
    (determine_deal_outcome_and_highest_stage seg is_competitive is_icp u).2 ≤ 4 := by
  unfold determine_deal_outcome_and_highest_stage
  rcases outcomeGo_cases
      (get_deal_configuration seg is_competitive is_icp).1.stage_conversion_rates u 0
    with hwin | ⟨k, hk, hlost⟩
  · rw [hwin]
  · rw [hlost]
    rw [rates_length] at hk
    omega

/-- C1: the outcome simulator walks the stage advance probabilities in
order, drawing one uniform value per step.  If the draws pass the first
k rates and fail the rate of stage k, the result is closed-lost with
highest stage exactly k (the stage at which the deal failed to advance);
if all five draws pass, the result is closed-won with highest stage 4,
the index of 5 - Contract Review. -/
theorem C1_outcome_walk (seg : Segment) (is_competitive is_icp : Bool)
    (u : ℕ → ℚ) :
    (∀ k, k < 5 →
      (∀ m, m < k →
        u m < (get_deal_configuration seg is_competitive is_icp).1.stage_conversion_rates.getD m 0) →
      ¬ u k < (get_deal_configuration seg is_competitive is_icp).1.stage_conversion_rates.getD k 0 →
      determine_deal_outcome_and_highest_stage seg is_competitive is_icp u = (false, k)) ∧
    ((∀ m, m < 5 →
        u m < (get_deal_configuration seg is_competitive is_icp).1.stage_conversion_rates.getD m 0) →
      determine_deal_outcome_and_highest_stage seg is_competitive is_icp u = (true, 4)) := by
  constructor
  · intro k hk hall hfail
    unfold determine_deal_outcome_and_highest_stage
    have := outcomeGo_firstFail
      (get_deal_configuration seg is_competitive is_icp).1.stage_conversion_rates u 0 k
      (by rw [rates_length]; exact hk)
      (fun m hm => by simpa using hall m hm)
      (by simpa using hfail)
    simpa using this
  · intro hall
    unfold determine_deal_outcome_and_highest_stage
    exact outcomeGo_allPass _ u 0 0 (fun m hm => by
      rw [rates_length] at hm
      simpa using hall m hm)

/-- A concrete draw stream for the C1 witness: the first two draws are 0
(below every configured rate) and the third is 1 (at least every rate). -/
def uFailAt2 : ℕ → ℚ := fun n => if n < 2 then 0 else 1

/-- Witness for C1 at a concrete input: baseline Enterprise rates, draws
passing stages 0 and 1 and failing at stage 2, so the deal closes lost
with highest stage index 2 (3 - Proposal). -/
theorem C1_outcome_walk_witness :
    (2 : ℕ) < 5 ∧
    determine_deal_outcome_and_highest_stage .enterprise false true uFailAt2
      = (false, 2) :=
  ⟨by norm_num,
   (C1_outcome_walk .enterprise false true uFailAt2).1 2 (by norm_num)
     (by
       intro m hm
       interval_cases m <;>
         norm_num [uFailAt2, get_deal_configuration, segments])
     (by norm_num [uFailAt2, get_deal_configuration, segments])⟩

/-- The stage_progression timing curve chosen inside
calculate_stage_progression, as a list of fractional positions indexed by
stage 0..6.  The dispatch in the source tests config_type == Non-ICP and
segment == Enterprise first (equivalent to the nonICP classification,
which only arises for Enterprise), then is_competitive, else baseline. -/
def stageProgressionCurve (ct : ConfigType) : List ℚ :=
  match ct with
  | .nonICP => [0, 1/20, 3/4, 17/20, 19/20, 1, 1]
  | .competitive => [0, 2/25, 3/20, 9/50, 9/10, 1, 1]
  | .base => [0, 3/20, 7/20, 11/20, 3/4, 1, 1]

/-- Fractional position of stage k on the chosen curve. -/
def stagePct (ct : ConfigType) (k : ℕ) : ℚ :=
  (stageProgressionCurve ct).getD k 0

/-- Entry date of a non-first stage k (indices 1..4): the created date
plus int(total_cycle_days * stage_pct), plus the sampled jitter j k,
clamped from below to one day after the created date.  The first stage
(k = 0) is the created date itself; the clamp and jitter are applied by
the source to every reached stage after the first. -/
def entryDate (ct : ConfigType) (created close : ℤ) (j : ℕ → ℤ) (k : ℕ) : ℤ :=
  max (created + pyInt (((close - created : ℤ) : ℚ) * stagePct ct k) + j k)
    (created + 1)

/-- The bound of the uniform jitter drawn for stage k:
int(stage_duration * 0.2) where stage_duration is
int(total_cycle_days * (stage_pct - prev_stage_pct)).  The draw is
random.randint(-bound, bound). -/
def jitterBound (ct : ConfigType) (created close : ℤ) (k : ℕ) : ℤ :=
  pyInt ((pyInt (((close - created : ℤ) : ℚ) * (stagePct ct k - stagePct ct (k - 1))) : ℤ) / 5)

/-- Stage entry dates of a closed-lost deal with highest reached stage h
(an index 0..4): the reached stages 0..h get dates, stages beyond h are
null, the Closed Lost slot carries the expected close date and the
Closed Won slot is null. -/
def stageDatesLost (ct : ConfigType) (created close : ℤ) (j : ℕ → ℤ)
    (h : ℕ) : List (Option ℤ) :=
  [some created,
   if 1 ≤ h then some (entryDate ct created close j 1) else none,
   if 2 ≤ h then some (entryDate ct created close j 2) else none,
   if 3 ≤ h then some (entryDate ct created close j 3) else none,
   if 4 ≤ h then some (entryDate ct created close j 4) else none,
   some close,
   none]

/-- Stage entry dates of a closed-won deal: every non-terminal stage gets
a date, the Closed Won slot carries the expected close date and the
Closed Lost slot is null. -/
def stageDatesWon (ct : ConfigType) (created close : ℤ) (j : ℕ → ℤ) :
    List (Option ℤ) :=
  [some created,
   some (entryDate ct created close j 1),
   some (entryDate ct created close j 2),
   some (entryDate ct created close j 3),
   some (entryDate ct created close j 4),
   none,
   some close]

/-- The elapsed fraction of an open deal: min(0.9, deal_age divided by
the total cycle length), where deal_age is measured from the created
date to the hard-coded current date. -/
def progressRatio (created close : ℤ) : ℚ :=
  min (9/10) (((currentTime - created : ℤ) : ℚ) / ((close - created : ℤ) : ℚ))

/-- Stage entry dates of a still-open deal: a non-terminal stage gets a
date exactly when its curve position does not exceed the progress ratio;
both terminal slots are null. -/
def stageDatesOpen (ct : ConfigType) (created close : ℤ) (j : ℕ → ℤ) :
    List (Option ℤ) :=
  [some created,
   if stagePct ct 1 ≤ progressRatio created close then
     some (entryDate ct created close j 1) else none,
   if stagePct ct 2 ≤ progressRatio created close then
     some (entryDate ct created close j 2) else none,
   if stagePct ct 3 ≤ progressRatio created close then
     some (entryDate ct created close j 3) else none,
   if stagePct ct 4 ≤ progressRatio created close then
     some (entryDate ct created close j 4) else none,
   none,
   none]

/-- First non-null date in the remaining stage list: the date the deal
moved to its next reached stage. -/
def nextStageDate : List (Option ℤ) → Option ℤ
  | [] => none
  | none :: rest => nextStageDate rest
  | some d :: _ => some d

/-- The days-in-stage computation of the source: a reached stage dwells
until the next reached stage; the final reached stage dwells until
endDate (the close date for closed deals, the current date for open
ones), clamped from below at zero.  Unreached stages stay null. -/
def daysInStageList (endDate : ℤ) : List (Option ℤ) → List (Option ℤ)
  | [] => []
  | none :: rest => none :: daysInStageList endDate rest
  | some d :: rest =>
      (match nextStageDate rest with
       | some nd => some (nd - d)
       | none => some (max 0 (endDate - d))) :: daysInStageList endDate rest

/-- Sum of the non-null dwell-day fields. -/
def sumDwell : List (Option ℤ) → ℤ
  | [] => 0
  | none :: rest => sumDwell rest
  | some d :: rest => d + sumDwell rest

/-- calculate_stage_progression: dispatch on the deal outcome exactly as
the source does (closed-lost with a recorded highest stage, then
closed-won, else the open-deal branch) and pair the stage dates with the
days-in-stage fields.  Stage 5 is Closed Lost and stage 6 is Closed Won;
for closed deals the final dwell is measured to the close date, for open
deals to the hard-coded current date. -/
def calculate_stage_progression (ct : ConfigType) (created close : ℤ)
    (stage : ℕ) (hOpt : Option ℕ) (j : ℕ → ℤ) :
    List (Option ℤ) × List (Option ℤ) :=
  let dates :=
    if stage = 5 then
      match hOpt with
      | some hs => stageDatesLost ct created close j hs
      | none => stageDatesOpen ct created close j
    else if stage = 6 then stageDatesWon ct created close j
    else stageDatesOpen ct created close j
  let endDate := if stage = 5 ∨ stage = 6 then close else currentTime
  (dates, daysInStageList endDate dates)

lemma sumDwell_lost (ct : ConfigType) (created close : ℤ) (j : ℕ → ℤ)
    (h : ℕ) (hh : h ≤ 4) :
    sumDwell (daysInStageList close (stageDatesLost ct created close j h))
      = close - created := by
  interval_cases h <;>
    simp [stageDatesLost, daysInStageList, nextStageDate, sumDwell]

lemma sumDwell_won (ct : ConfigType) (created close : ℤ) (j : ℕ → ℤ) :
    sumDwell (daysInStageList close (stageDatesWon ct created close j))
      = close - created := by
  simp [stageDatesWon, daysInStageList, nextStageDate, sumDwell]

/-- The current-stage selection for still-open deals inside
calculate_deal_progression: a threshold chain on the progress ratio,
its thresholds depending on the deal classification. -/
def openStage (ct : ConfigType) (progress : ℚ) : ℕ :=
  match ct with
  | .nonICP =>
      if progress < 1/10 then 0
      else if progress < 3/5 then 1
      else if progress < 3/4 then 2
      else if progress < 9/10 then 3
      else 4
  | .competitive =>
      if progress < 1/10 then 0
      else if progress < 1/5 then 1
      else if progress < 1/4 then 2
      else if progress < 4/5 then 3
      else 4
  | .base =>
      if progress < 3/20 then 0
      else if progress < 7/20 then 1
      else if progress < 11/20 then 2
      else if progress < 3/4 then 3
      else 4

lemma openStage_le (ct : ConfigType) (progress : ℚ) :
    openStage ct progress ≤ 4 := by
  cases ct <;> simp only [openStage] <;> split_ifs <;> omega

/-- calculate_deal_progression: sample the cycle length (the draw
cycleDraw models int(np.random.normal(...)), then the source clamps it
to at least 20 days), derive the expected close date, and either settle
the outcome through the stage walk (deals whose expected close date is
not after the current date) or report the current open stage from the
progress ratio.  Returns (stage index, expected close date, highest
stage reached or none). -/
def calculate_deal_progression (seg : Segment) (is_competitive is_icp : Bool)
    (created cycleDraw : ℤ) (u : ℕ → ℚ) : ℕ × ℤ × Option ℕ :=
  let actual_cycle := max 20 cycleDraw
  let close := created + actual_cycle
  if close ≤ currentTime then
    let o := determine_deal_outcome_and_highest_stage seg is_competitive is_icp u
    (if o.1 then 6 else 5, close, some o.2)
  else
    (openStage (get_deal_configuration seg is_competitive is_icp).2
        (min (9/10) (((currentTime - created : ℤ) : ℚ) / (actual_cycle : ℚ))),
     close, none)

/-- The stage_probs lookup tables of generate_opportunities for open
deals, indexed by classification and then by stage index 0..4. -/
def probTable (ct : ConfigType) (stage : ℕ) : ℕ :=
  (match ct with
   | .nonICP => [8, 12, 30, 50, 70]
   | .competitive => [10, 15, 25, 35, 60]
   | .base => [15, 25, 40, 65, 85]).getD stage 0

lemma probTable_bounds (ct : ConfigType) (stage : ℕ) (hs : stage ≤ 4) :
    0 < probTable ct stage ∧ probTable ct stage < 100 := by
  interval_cases stage <;> cases ct <;> simp [probTable]

/-- The fields of one generated opportunity record that the verified
claims talk about. -/
structure OppRecord where
  stage : ℕ
  probability : ℕ
  expectedRevenue : ℤ
  highestStageReached : Option ℕ
  stageDates : List (Option ℤ)
  daysInStage : List (Option ℤ)
  createdDate : ℤ
  closeDate : ℤ
  amount : ℤ

/-- The per-deal body of generate_opportunities: run the lifecycle
calculator, build the stage timeline, and fill in the probability and
expected-revenue fields (100 and the amount for closed-won, 0 and 0 for
closed-lost, the stage_probs lookup and amount * probability / 100 for
open deals; the source stores int(expected_revenue)).  The
Highest_Stage_Reached field keeps the walk result only for closed-lost
records.  No validation of any input is performed anywhere on this
path, mirroring the source. -/
def generateOpportunity (seg : Segment) (is_competitive is_icp : Bool)
    (created cycleDraw amount : ℤ) (u : ℕ → ℚ) (j : ℕ → ℤ) : OppRecord :=
  let ct := (get_deal_configuration seg is_competitive is_icp).2
  let p := calculate_deal_progression seg is_competitive is_icp created cycleDraw u
  let stage := p.1
  let close := p.2.1
  let hOpt := p.2.2
  let sp := calculate_stage_progression ct created close stage hOpt j
  { stage := stage
    probability :=
      if stage = 6 then 100 else if stage = 5 then 0 else probTable ct stage
    expectedRevenue :=
      if stage = 6 then amount else if stage = 5 then 0
      else pyInt ((amount : ℚ) * (probTable ct stage : ℚ) / 100)
    highestStageReached := if stage = 5 then hOpt else none
    stageDates := sp.1
    daysInStage := sp.2
    createdDate := created
    closeDate := close
    amount := amount }

lemma genOpp_closed_lost (seg : Segment) (is_competitive is_icp : Bool)
    (created cycleDraw amount : ℤ) (u : ℕ → ℚ) (j : ℕ → ℤ) (hs : ℕ)
    (hcl : created + max 20 cycleDraw ≤ currentTime)
    (hout : determine_deal_outcome_and_highest_stage seg is_competitive is_icp u
      = (false, hs)) :
    generateOpportunity seg is_competitive is_icp created cycleDraw amount u j =
      { stage := 5
        probability := 0
        expectedRevenue := 0
        highestStageReached := some hs
        stageDates := stageDatesLost (get_deal_configuration seg is_competitive is_icp).2
          created (created + max 20 cycleDraw) j hs
        daysInStage := daysInStageList (created + max 20 cycleDraw)
          (stageDatesLost (get_deal_configuration seg is_competitive is_icp).2
            created (created + max 20 cycleDraw) j hs)
        createdDate := created
        closeDate := created + max 20 cycleDraw
        amount := amount } := by
  simp [generateOpportunity, calculate_deal_progression, calculate_stage_progression,
    hcl, hout]

lemma genOpp_closed_won (seg : Segment) (is_competitive is_icp : Bool)
    (created cycleDraw amount : ℤ) (u : ℕ → ℚ) (j : ℕ → ℤ) (hs : ℕ)
    (hcl : created + max 20 cycleDraw ≤ currentTime)
    (hout : determine_deal_outcome_and_highest_stage seg is_competitive is_icp u
      = (true, hs)) :
    generateOpportunity seg is_competitive is_icp created cycleDraw amount u j =
      { stage := 6
        probability := 100
        expectedRevenue := amount
        highestStageReached := none
        stageDates := stageDatesWon (get_deal_configuration seg is_competitive is_icp).2
          created (created + max 20 cycleDraw) j
        daysInStage := daysInStageList (created + max 20 cycleDraw)
          (stageDatesWon (get_deal_configuration seg is_competitive is_icp).2
            created (created + max 20 cycleDraw) j)
        createdDate := created
        closeDate := created + max 20 cycleDraw
        amount := amount } := by
  simp [generateOpportunity, calculate_deal_progression, calculate_stage_progression,
    hcl, hout]

lemma genOpp_open (seg : Segment) (is_competitive is_icp : Bool)
    (created cycleDraw amount : ℤ) (u : ℕ → ℚ) (j : ℕ → ℤ)
    (hcl : ¬ created + max 20 cycleDraw ≤ currentTime) :
    generateOpportunity seg is_competitive is_icp created cycleDraw amount u j =
      { stage := openStage (get_deal_configuration seg is_competitive is_icp).2
          (min (9/10) (((currentTime - created : ℤ) : ℚ) / ((max 20 cycleDraw : ℤ) : ℚ)))
        probability := probTable (get_deal_configuration seg is_competitive is_icp).2
          (openStage (get_deal_configuration seg is_competitive is_icp).2
            (min (9/10) (((currentTime - created : ℤ) : ℚ) / ((max 20 cycleDraw : ℤ) : ℚ))))
        expectedRevenue := pyInt ((amount : ℚ) *
          (probTable (get_deal_configuration seg is_competitive is_icp).2
            (openStage (get_deal_configuration seg is_competitive is_icp).2
              (min (9/10) (((currentTime - created : ℤ) : ℚ) / ((max 20 cycleDraw : ℤ) : ℚ)))) : ℚ)
          / 100)
        highestStageReached := none
        stageDates := stageDatesOpen (get_deal_configuration seg is_competitive is_icp).2
          created (created + max 20 cycleDraw) j
        daysInStage := daysInStageList currentTime
          (stageDatesOpen (get_deal_configuration seg is_competitive is_icp).2
            created (created + max 20 cycleDraw) j)
        createdDate := created
        closeDate := created + max 20 cycleDraw
        amount := amount } := by
  have h5 : ∀ q : ℚ,
      openStage (get_deal_configuration seg is_competitive is_icp).2 q ≠ 5 := by
    intro q
    have := openStage_le (get_deal_configuration seg is_competitive is_icp).2 q
    omega
  have h6 : ∀ q : ℚ,
      openStage (get_deal_configuration seg is_competitive is_icp).2 q ≠ 6 := by
    intro q
    have := openStage_le (get_deal_configuration seg is_competitive is_icp).2 q
    omega
  simp [generateOpportunity, calculate_deal_progression, calculate_stage_progression,
    hcl, h5, h6, add_sub_cancel_left]

lemma genOpp_closeDate (seg : Segment) (is_competitive is_icp : Bool)
    (created cycleDraw amount : ℤ) (u : ℕ → ℚ) (j : ℕ → ℤ) :
    (generateOpportunity seg is_competitive is_icp created cycleDraw amount u j).closeDate
      = created + max 20 cycleDraw := by
  by_cases hcl : created + max 20 cycleDraw ≤ currentTime
  · rcases hbo : determine_deal_outcome_and_highest_stage seg is_competitive is_icp u
      with ⟨b, hs⟩
    cases b
    · rw [genOpp_closed_lost seg is_competitive is_icp created cycleDraw amount u j hs
        hcl hbo]
    · rw [genOpp_closed_won seg is_competitive is_icp created cycleDraw amount u j hs
        hcl hbo]
  · rw [genOpp_open seg is_competitive is_icp created cycleDraw amount u j hcl]

/-- C2: for every closed deal, won or lost, the non-null dwell-day
fields sum exactly to the number of days between the created date and
the close date.  The terminal stage carries the close date itself, both
for lost and for won deals, so the dwell chain telescopes to the full
cycle length whatever the jitter draws were. -/
theorem C2_dwell_conservation (seg : Segment) (is_competitive is_icp : Bool)
    (created cycleDraw amount : ℤ) (u : ℕ → ℚ) (j : ℕ → ℤ) (r : OppRecord)
    (hr : r = generateOpportunity seg is_competitive is_icp created cycleDraw amount u j)
    (hclosed : r.stage = 5 ∨ r.stage = 6) :
    sumDwell r.daysInStage = r.closeDate - r.createdDate := by
  subst hr
  by_cases hcl : created + max 20 cycleDraw ≤ currentTime
  · rcases hbo : determine_deal_outcome_and_highest_stage seg is_competitive is_icp u
      with ⟨b, hs⟩
    cases b
    · rw [genOpp_closed_lost seg is_competitive is_icp created cycleDraw amount u j hs
        hcl hbo]
      have hle : hs ≤ 4 := by
        have := outcome_highest_le seg is_competitive is_icp u
        rw [hbo] at this
        exact this
      simpa using sumDwell_lost _ created (created + max 20 cycleDraw) j hs hle
    · rw [genOpp_closed_won seg is_competitive is_icp created cycleDraw amount u j hs
        hcl hbo]
      simpa using sumDwell_won _ created (created + max 20 cycleDraw) j
  · rw [genOpp_open seg is_competitive is_icp created cycleDraw amount u j hcl]
      at hclosed
    have := openStage_le (get_deal_configuration seg is_competitive is_icp).2
      (min (9/10) (((currentTime - created : ℤ) : ℚ) / ((max 20 cycleDraw : ℤ) : ℚ)))
    dsimp only at hclosed
    omega

/-- A constant stream of draws equal to 1: at or above every conversion
rate, so the walk fails immediately. -/
def uOne : ℕ → ℚ := fun _ => 1

/-- A constant stream of draws equal to 0: below every conversion rate,
so the walk passes every stage. -/
def uZero : ℕ → ℚ := fun _ => 0

/-- A zero jitter stream. -/
def jZero : ℕ → ℤ := fun _ => 0

lemma outcome_smb_base_uOne :
    determine_deal_outcome_and_highest_stage .smb false true uOne = (false, 0) := by
  norm_num [determine_deal_outcome_and_highest_stage, get_deal_configuration,
    segments, outcomeGo, uOne]

/-- Witness for C2 at a concrete input: a closed-lost SMB deal created
on day 0 with a 20-day cycle. -/
theorem C2_dwell_conservation_witness :
    ((generateOpportunity .smb false true 0 20 1000 uOne jZero).stage = 5 ∨
     (generateOpportunity .smb false true 0 20 1000 uOne jZero).stage = 6) ∧
    sumDwell (generateOpportunity .smb false true 0 20 1000 uOne jZero).daysInStage
      = (generateOpportunity .smb false true 0 20 1000 uOne jZero).closeDate
        - (generateOpportunity .smb false true 0 20 1000 uOne jZero).createdDate := by
  have hcl : (0 : ℤ) + max 20 20 ≤ currentTime := by norm_num [currentTime]
  have hst : (generateOpportunity .smb false true 0 20 1000 uOne jZero).stage = 5 := by
    rw [genOpp_closed_lost .smb false true 0 20 1000 uOne jZero 0 hcl
      outcome_smb_base_uOne]
  exact ⟨Or.inl hst,
    C2_dwell_conservation .smb false true 0 20 1000 uOne jZero _ rfl (Or.inl hst)⟩

lemma stageDatesLost_null (ct : ConfigType) (created close : ℤ) (j : ℕ → ℤ)
    (h k : ℕ) (h1 : h < k) (h2 : k ≤ 4) :
    (stageDatesLost ct created close j h).getD k none = none := by
  have hk1 : 1 ≤ k := by omega
  interval_cases k <;> simp [stageDatesLost] <;> omega

/-- C4: a closed-lost record has probability 0 and expected revenue 0,
and every non-terminal stage strictly beyond the recorded highest stage
reached is null, as is the Closed Won slot.  (The Closed Lost slot
itself carries the close date, by design.) -/
theorem C4_closed_lost_fields (seg : Segment) (is_competitive is_icp : Bool)
    (created cycleDraw amount : ℤ) (u : ℕ → ℚ) (j : ℕ → ℤ) (r : OppRecord)
    (hr : r = generateOpportunity seg is_competitive is_icp created cycleDraw amount u j)
    (hlost : r.stage = 5) :
    r.probability = 0 ∧ r.expectedRevenue = 0 ∧
    ∃ hs, r.highestStageReached = some hs ∧ hs ≤ 4 ∧
      (∀ k, hs < k → k ≤ 4 → r.stageDates.getD k none = none) ∧
      r.stageDates.getD 6 none = none := by
  subst hr
  by_cases hcl : created + max 20 cycleDraw ≤ currentTime
  · rcases hbo : determine_deal_outcome_and_highest_stage seg is_competitive is_icp u
      with ⟨b, hs⟩
    cases b
    · rw [genOpp_closed_lost seg is_competitive is_icp created cycleDraw amount u j hs
        hcl hbo]
      have hle : hs ≤ 4 := by
        have := outcome_highest_le seg is_competitive is_icp u
        rw [hbo] at this
        exact this
      refine ⟨rfl, rfl, hs, rfl, hle, ?_, ?_⟩
      · intro k hk1 hk2
        exact stageDatesLost_null _ created (created + max 20 cycleDraw) j hs k hk1 hk2
      · simp [stageDatesLost]
    · rw [genOpp_closed_won seg is_competitive is_icp created cycleDraw amount u j hs
        hcl hbo] at hlost
      exact absurd hlost (by norm_num)
  · rw [genOpp_open seg is_competitive is_icp created cycleDraw amount u j hcl] at hlost
    have := openStage_le (get_deal_configuration seg is_competitive is_icp).2
      (min (9/10) (((currentTime - created : ℤ) : ℚ) / ((max 20 cycleDraw : ℤ) : ℚ)))
    dsimp only at hlost
    omega

/-- Witness for C4 at a concrete input: a closed-lost SMB deal that
failed to advance out of stage 0. -/
theorem C4_closed_lost_fields_witness :
    (generateOpportunity .smb false true 2 20 1000 uOne jZero).stage = 5 ∧
    (generateOpportunity .smb false true 2 20 1000 uOne jZero).probability = 0 ∧
    (generateOpportunity .smb false true 2 20 1000 uOne jZero).expectedRevenue = 0 := by
  have hcl : (2 : ℤ) + max 20 20 ≤ currentTime := by norm_num [currentTime]
  have hst : (generateOpportunity .smb false true 2 20 1000 uOne jZero).stage = 5 := by
    rw [genOpp_closed_lost .smb false true 2 20 1000 uOne jZero 0 hcl
      outcome_smb_base_uOne]
  have hmain := C4_closed_lost_fields .smb false true 2 20 1000 uOne jZero _ rfl hst
  exact ⟨hst, hmain.1, hmain.2.1⟩

/-- C5: a closed-won record has probability exactly 100 and expected
revenue exactly equal to the deal amount. -/
theorem C5_closed_won_fields (seg : Segment) (is_competitive is_icp : Bool)
    (created cycleDraw amount : ℤ) (u : ℕ → ℚ) (j : ℕ → ℤ) (r : OppRecord)
    (hr : r = generateOpportunity seg is_competitive is_icp created cycleDraw amount u j)
    (hwon : r.stage = 6) :
    r.probability = 100 ∧ r.expectedRevenue = r.amount := by
  subst hr
  by_cases hcl : created + max 20 cycleDraw ≤ currentTime
  · rcases hbo : determine_deal_outcome_and_highest_stage seg is_competitive is_icp u
      with ⟨b, hs⟩
    cases b
    · rw [genOpp_closed_lost seg is_competitive is_icp created cycleDraw amount u j hs
        hcl hbo] at hwon
      exact absurd hwon (by norm_num)
    · rw [genOpp_closed_won seg is_competitive is_icp created cycleDraw amount u j hs
        hcl hbo]
      exact ⟨rfl, rfl⟩
  · rw [genOpp_open seg is_competitive is_icp created cycleDraw amount u j hcl] at hwon
    have := openStage_le (get_deal_configuration seg is_competitive is_icp).2
      (min (9/10) (((currentTime - created : ℤ) : ℚ) / ((max 20 cycleDraw : ℤ) : ℚ)))
    dsimp only at hwon
    omega

lemma outcome_smb_base_uZero :
    determine_deal_outcome_and_highest_stage .smb false true uZero = (true, 4) := by
  norm_num [determine_deal_outcome_and_highest_stage, get_deal_configuration,
    segments, outcomeGo, uZero]

/-- Witness for C5 at a concrete input: a closed-won SMB deal whose five
draws all pass. -/
theorem C5_closed_won_fields_witness :
    (generateOpportunity .smb false true 0 25 1234 uZero jZero).stage = 6 ∧
    (generateOpportunity .smb false true 0 25 1234 uZero jZero).probability = 100 ∧
    (generateOpportunity .smb false true 0 25 1234 uZero jZero).expectedRevenue
      = (generateOpportunity .smb false true 0 25 1234 uZero jZero).amount := by
  have hcl : (0 : ℤ) + max 20 25 ≤ currentTime := by norm_num [currentTime]
  have hst : (generateOpportunity .smb false true 0 25 1234 uZero jZero).stage = 6 := by
    rw [genOpp_closed_won .smb false true 0 25 1234 uZero jZero 4 hcl
      outcome_smb_base_uZero]
  have hmain := C5_closed_won_fields .smb false true 0 25 1234 uZero jZero _ rfl hst
  exact ⟨hst, hmain.1, hmain.2⟩

/-- C10: a record whose expected close date lies after the simulation
current date is an open deal: its stage is one of the five non-terminal
stages, both terminal date slots are null, the highest-stage-reached
field is null, and the probability is strictly between 0 and 100. -/
theorem C10_open_record (seg : Segment) (is_competitive is_icp : Bool)
    (created cycleDraw amount : ℤ) (u : ℕ → ℚ) (j : ℕ → ℤ) (r : OppRecord)
    (hr : r = generateOpportunity seg is_competitive is_icp created cycleDraw amount u j)
    (hopen : currentTime < r.closeDate) :
    r.stage ≤ 4 ∧ r.stageDates.getD 5 none = none ∧
    r.stageDates.getD 6 none = none ∧ r.highestStageReached = none ∧
    0 < r.probability ∧ r.probability < 100 := by
  subst hr
  rw [genOpp_closeDate] at hopen
  have hcl : ¬ created + max 20 cycleDraw ≤ currentTime := by omega
  rw [genOpp_open seg is_competitive is_icp created cycleDraw amount u j hcl]
  dsimp only
  refine ⟨openStage_le _ _, ?_, ?_, rfl, ?_, ?_⟩
  · simp [stageDatesOpen]
  · simp [stageDatesOpen]
  · exact (probTable_bounds _ _ (openStage_le _ _)).1
  · exact (probTable_bounds _ _ (openStage_le _ _)).2

/-- Witness for C10 at a concrete input: a Mid-Market deal created on
the simulation current date, whose cycle still has 20 days to run. -/
theorem C10_open_record_witness :
    currentTime <
      (generateOpportunity .midMarket false true currentTime 0 500 uZero jZero).closeDate ∧
    (generateOpportunity .midMarket false true currentTime 0 500 uZero jZero).stage ≤ 4 ∧
    (generateOpportunity .midMarket false true currentTime 0 500 uZero jZero).highestStageReached
      = none := by
  have hopen : currentTime <
      (generateOpportunity .midMarket false true currentTime 0 500 uZero jZero).closeDate := by
    rw [genOpp_closeDate]
    norm_num
  have hmain := C10_open_record .midMarket false true currentTime 0 500 uZero jZero _
    rfl hopen
  exact ⟨hopen, hmain.1, hmain.2.2.2.1⟩

lemma pyInt_intCast (n : ℤ) : pyInt ((n : ℤ) : ℚ) = n := by
  simp only [pyInt, Rat.num_intCast, Rat.den_intCast, Nat.div_one]
  exact Int.sign_mul_natAbs n

lemma pyInt_eval (q : ℚ) (n : ℤ) (h : q = (n : ℚ)) : pyInt q = n := by
  rw [h, pyInt_intCast]

lemma entryDate_lower (ct : ConfigType) (created close : ℤ) (j : ℕ → ℤ)
    (k : ℕ) : created + 1 ≤ entryDate ct created close j k := by
  simp only [entryDate]
  exact le_max_right _ _

lemma stageDatesLost_reached (ct : ConfigType) (created close : ℤ)
    (j : ℕ → ℤ) (h k : ℕ) (hk1 : 1 ≤ k) (hkh : k ≤ h) (hk4 : k ≤ 4) :
    (stageDatesLost ct created close j h).getD k none
      = some (entryDate ct created close j k) := by
  interval_cases k <;> simp [stageDatesLost, hkh]

lemma stageDatesWon_reached (ct : ConfigType) (created close : ℤ)
    (j : ℕ → ℤ) (k : ℕ) (hk1 : 1 ≤ k) (hk4 : k ≤ 4) :
    (stageDatesWon ct created close j).getD k none
      = some (entryDate ct created close j k) := by
  interval_cases k <;> simp [stageDatesWon]

lemma stageDatesOpen_reached (ct : ConfigType) (created close : ℤ)
    (j : ℕ → ℤ) (k : ℕ) (hk1 : 1 ≤ k) (hk4 : k ≤ 4)
    (hcond : stagePct ct k ≤ progressRatio created close) :
    (stageDatesOpen ct created close j).getD k none
      = some (entryDate ct created close j k) := by
  interval_cases k <;> simp [stageDatesOpen, hcond]

lemma stageDatesOpen_unreached (ct : ConfigType) (created close : ℤ)
    (j : ℕ → ℤ) (k : ℕ) (hk1 : 1 ≤ k) (hk4 : k ≤ 4)
    (hcond : ¬ stagePct ct k ≤ progressRatio created close) :
    (stageDatesOpen ct created close j).getD k none = none := by
  interval_cases k <;> simp [stageDatesOpen, hcond]

/-- A stage with no later non-null entry date (the final reached stage)
always gets a non-negative dwell: that branch of the source applies
max(0, endDate - entry). -/
lemma daysInStageList_last_nonneg (endDate : ℤ) :
    ∀ (l : List (Option ℤ)) (k : ℕ) (d : ℤ),
      nextStageDate (l.drop (k + 1)) = none →
      (daysInStageList endDate l).getD k none = some d → 0 ≤ d := by
  intro l
  induction l with
  | nil =>
      intro k d _ hd
      simp [daysInStageList] at hd
  | cons x rest ih =>
      intro k d hnext hd
      cases k with
      | zero =>
          cases x with
          | none => simp [daysInStageList] at hd
          | some v =>
              simp only [List.drop_succ_cons, List.drop_zero] at hnext
              simp only [daysInStageList, hnext, List.getD_cons_zero,
                Option.some_inj] at hd
              rw [← hd]
              exact le_max_left _ _
      | succ k =>
          have hdrop : (x :: rest).drop (k + 1 + 1) = rest.drop (k + 1) := rfl
          rw [hdrop] at hnext
          cases x with
          | none =>
              simp only [daysInStageList, List.getD_cons_succ] at hd
              exact ih k d hnext hd
          | some v =>
              simp only [daysInStageList, List.getD_cons_succ] at hd
              exact ih k d hnext hd

/-- C3 (amended): in every generated timeline the first stage enters on
the created date, every later reached stage enters at least one day
after the created date, stages the deal never reached are null, and the
final reached stage dwell is non-negative.  For closed deals the
terminal slot of the outcome carries the close date, the opposite
terminal slot is null, and the terminal dwell is exactly zero; for
still-open deals a non-terminal stage is reached exactly when its curve
position does not exceed the progress ratio, both terminal slots are
null, and the dwell of the stage with no later non-null entry (the
final reached stage, measured to the as-of date) is non-negative.  The
jitter clamp only enforces the one-day floor above the created date, so
these are the guarantees that survive it. -/
theorem C3_amended_timeline (ct : ConfigType) (created close : ℤ)
    (j : ℕ → ℤ) (h : ℕ) (hh : h ≤ 4) :
    ((stageDatesLost ct created close j h).getD 0 none = some created ∧
     (∀ k, 1 ≤ k → k ≤ h →
       ∃ e, (stageDatesLost ct created close j h).getD k none = some e ∧
         created + 1 ≤ e) ∧
     (∀ k, h < k → k ≤ 4 →
       (stageDatesLost ct created close j h).getD k none = none) ∧
     (stageDatesLost ct created close j h).getD 5 none = some close ∧
     (stageDatesLost ct created close j h).getD 6 none = none ∧
     (daysInStageList close (stageDatesLost ct created close j h)).getD 5 none
       = some 0) ∧
    ((stageDatesWon ct created close j).getD 0 none = some created ∧
     (∀ k, 1 ≤ k → k ≤ 4 →
       ∃ e, (stageDatesWon ct created close j).getD k none = some e ∧
         created + 1 ≤ e) ∧
     (stageDatesWon ct created close j).getD 5 none = none ∧
     (stageDatesWon ct created close j).getD 6 none = some close ∧
     (daysInStageList close (stageDatesWon ct created close j)).getD 6 none
       = some 0) ∧
    ((stageDatesOpen ct created close j).getD 0 none = some created ∧
     (∀ k, 1 ≤ k → k ≤ 4 →
       (stagePct ct k ≤ progressRatio created close →
         ∃ e, (stageDatesOpen ct created close j).getD k none = some e ∧
           created + 1 ≤ e) ∧
       (¬ stagePct ct k ≤ progressRatio created close →
         (stageDatesOpen ct created close j).getD k none = none)) ∧
     (stageDatesOpen ct created close j).getD 5 none = none ∧
     (stageDatesOpen ct created close j).getD 6 none = none ∧
     (∀ k d,
       nextStageDate ((stageDatesOpen ct created close j).drop (k + 1)) = none →
       (daysInStageList currentTime (stageDatesOpen ct created close j)).getD k none
         = some d →
       0 ≤ d)) := by
  refine ⟨⟨?_, ?_, ?_, ?_, ?_, ?_⟩, ⟨?_, ?_, ?_, ?_, ?_⟩, ?_, ?_, ?_, ?_, ?_⟩
  · simp [stageDatesLost]
  · intro k hk1 hkh
    exact ⟨entryDate ct created close j k,
      stageDatesLost_reached ct created close j h k hk1 hkh (le_trans hkh hh),
      entryDate_lower ct created close j k⟩
  · intro k hk1 hk2
    exact stageDatesLost_null ct created close j h k hk1 hk2
  · simp [stageDatesLost]
  · simp [stageDatesLost]
  · interval_cases h <;>
      simp [stageDatesLost, daysInStageList, nextStageDate]
  · simp [stageDatesWon]
  · intro k hk1 hk4
    exact ⟨entryDate ct created close j k,
      stageDatesWon_reached ct created close j k hk1 hk4,
      entryDate_lower ct created close j k⟩
  · simp [stageDatesWon]
  · simp [stageDatesWon]
  · simp [stageDatesWon, daysInStageList, nextStageDate]
  · simp [stageDatesOpen]
  · intro k hk1 hk4
    constructor
    · intro hcond
      exact ⟨entryDate ct created close j k,
        stageDatesOpen_reached ct created close j k hk1 hk4 hcond,
        entryDate_lower ct created close j k⟩
    · intro hcond
      exact stageDatesOpen_unreached ct created close j k hk1 hk4 hcond
  · simp [stageDatesOpen]
  · simp [stageDatesOpen]
  · intro k d hnext hd
    exact daysInStageList_last_nonneg currentTime _ k d hnext hd

/-- The jitter draws of the C3 counterexample: +14 days on stage 2
(3 - Proposal) and -1 day on stage 3 (4 - Negotiation). -/
def jC3 : ℕ → ℤ := fun k => if k = 2 then 14 else if k = 3 then -1 else 0

/-- Counterexample to C3 as stated: a closed-lost non-ICP Enterprise
timeline (curve positions 0, 1/20, 3/4, 17/20, 19/20) over a 100-day
cycle, with jitters inside the configured uniform ranges, enters stage 3
on day 84, before stage 2 on day 89: entry dates of reached stages are
not non-decreasing and the dwell of stage 2 is -5 days, negative.  The
same draws are reachable under Python float arithmetic, where the
stage 3 jitter bound evaluates to 1, so the -1 draw is available. -/
theorem C3_counterexample :
    -jitterBound .nonICP 0 100 2 ≤ jC3 2 ∧ jC3 2 ≤ jitterBound .nonICP 0 100 2 ∧
    -jitterBound .nonICP 0 100 3 ≤ jC3 3 ∧ jC3 3 ≤ jitterBound .nonICP 0 100 3 ∧
    (stageDatesLost .nonICP 0 100 jC3 3).getD 2 none = some 89 ∧
    (stageDatesLost .nonICP 0 100 jC3 3).getD 3 none = some 84 ∧
    (daysInStageList 100 (stageDatesLost .nonICP 0 100 jC3 3)).getD 2 none
      = some (-5) := by
  have b2 : jitterBound .nonICP 0 100 2 = 14 := by
    have hinner := pyInt_eval
      (((100 - 0 : ℤ) : ℚ) * (stagePct .nonICP 2 - stagePct .nonICP (2 - 1)))
      70 (by norm_num [stagePct, stageProgressionCurve])
    simp only [jitterBound, hinner]
    exact pyInt_eval _ 14 (by norm_num)
  have b3 : jitterBound .nonICP 0 100 3 = 2 := by
    have hinner := pyInt_eval
      (((100 - 0 : ℤ) : ℚ) * (stagePct .nonICP 3 - stagePct .nonICP (3 - 1)))
      10 (by norm_num [stagePct, stageProgressionCurve])
    simp only [jitterBound, hinner]
    exact pyInt_eval _ 2 (by norm_num)
  have e2 : entryDate .nonICP 0 100 jC3 2 = 89 := by
    simp only [entryDate]
    rw [pyInt_eval _ 75 (by norm_num [stagePct, stageProgressionCurve])]
    norm_num [jC3]
  have e3 : entryDate .nonICP 0 100 jC3 3 = 84 := by
    simp only [entryDate]
    rw [pyInt_eval _ 85 (by norm_num [stagePct, stageProgressionCurve])]
    norm_num [jC3]
  refine ⟨?_, ?_, ?_, ?_, ?_, ?_, ?_⟩ <;>
    simp [b2, b3, e2, e3, jC3, stageDatesLost, daysInStageList, nextStageDate]

/-- Witness for the amended C3 at a concrete input: a baseline timeline
over a 50-day cycle lost at stage 2. -/
theorem C3_amended_timeline_witness :
    (2 : ℕ) ≤ 4 ∧
    (stageDatesLost .base 0 50 jZero 2).getD 0 none = some 0 ∧
    (stageDatesLost .base 0 50 jZero 2).getD 5 none = some 50 ∧
    (stageDatesWon .base 0 50 jZero).getD 6 none = some 50 ∧
    (stageDatesOpen .base 0 50 jZero).getD 5 none = none :=
  ⟨by norm_num,
   (C3_amended_timeline .base 0 50 jZero 2 (by norm_num)).1.1,
   (C3_amended_timeline .base 0 50 jZero 2 (by norm_num)).1.2.2.2.1,
   (C3_amended_timeline .base 0 50 jZero 2 (by norm_num)).2.1.2.2.2.1,
   (C3_amended_timeline .base 0 50 jZero 2 (by norm_num)).2.2.2.2.1⟩

lemma openStage_neg (ct : ConfigType) (p : ℚ) (hp : p < 0) :
    openStage ct p = 0 := by
  cases ct <;> simp only [openStage] <;> rw [if_pos (by linarith)]

/-- C9 (amended): the engine performs no validation of its inputs.  A
created date that lies after the simulation current date is not
rejected: the record comes out as an ordinary still-open deal in stage
0 (1 - Lead Qualification) with a positive probability and no recorded
highest stage; no error of any kind is raised (the source defines no
InvalidInputError and raises nothing on this path). -/
theorem C9_amended_no_validation (seg : Segment) (is_competitive is_icp : Bool)
    (created cycleDraw amount : ℤ) (u : ℕ → ℚ) (j : ℕ → ℤ) (r : OppRecord)
    (hr : r = generateOpportunity seg is_competitive is_icp created cycleDraw amount u j)
    (hafter : currentTime < created) :
    r.stage = 0 ∧ 0 < r.probability ∧ r.highestStageReached = none := by
  subst hr
  have hcl : ¬ created + max 20 cycleDraw ≤ currentTime := by
    have : (20 : ℤ) ≤ max 20 cycleDraw := le_max_left _ _
    omega
  rw [genOpp_open seg is_competitive is_icp created cycleDraw amount u j hcl]
  have hneg : min (9/10 : ℚ)
      (((currentTime - created : ℤ) : ℚ) / ((max 20 cycleDraw : ℤ) : ℚ)) < 0 := by
    have hnum : ((currentTime - created : ℤ) : ℚ) < 0 := by
      have h1 : currentTime - created < 0 := by omega
      exact_mod_cast h1
    have hden : (0 : ℚ) < ((max 20 cycleDraw : ℤ) : ℚ) := by
      have h2 : (0 : ℤ) < max 20 cycleDraw := by
        have := le_max_left (20 : ℤ) cycleDraw
        omega
      exact_mod_cast h2
    exact lt_of_le_of_lt (min_le_right _ _) (div_neg_of_neg_of_pos hnum hden)
  dsimp only
  refine ⟨openStage_neg _ _ hneg, ?_, rfl⟩
  rw [openStage_neg _ _ hneg]
  exact (probTable_bounds _ 0 (by norm_num)).1

/-- Witness for the amended C9 at a concrete input: a deal created one
day after the simulation current date. -/
theorem C9_amended_no_validation_witness :
    currentTime < currentTime + 1 ∧
    (generateOpportunity .enterprise false true (currentTime + 1) 30 100 uZero jZero).stage
      = 0 ∧
    0 < (generateOpportunity .enterprise false true (currentTime + 1) 30 100 uZero jZero).probability := by
  have h := C9_amended_no_validation .enterprise false true (currentTime + 1) 30 100
    uZero jZero _ rfl (by norm_num)
  exact ⟨by norm_num, h.1, h.2.1⟩

/-- Counterexample to C9 as stated: with a negative amount of -1000 and
a created date ten days after the as-of date, the engine raises nothing
and produces an ordinary output record: an open stage-0 deal with
probability 15 and expected revenue -150.  No InvalidInputError exists
anywhere in the source. -/
theorem C9_counterexample :
    (generateOpportunity .midMarket false true (currentTime + 10) 30 (-1000) uZero jZero).stage
      = 0 ∧
    (generateOpportunity .midMarket false true (currentTime + 10) 30 (-1000) uZero jZero).probability
      = 15 ∧
    (generateOpportunity .midMarket false true (currentTime + 10) 30 (-1000) uZero jZero).expectedRevenue
      = -150 ∧
    (generateOpportunity .midMarket false true (currentTime + 10) 30 (-1000) uZero jZero).highestStageReached
      = none := by
  have hcl : ¬ (currentTime + 10 + max 20 30 ≤ currentTime) := by
    norm_num [currentTime]
  rw [genOpp_open .midMarket false true (currentTime + 10) 30 (-1000) uZero jZero hcl]
  have hprog : min (9/10 : ℚ)
      (((currentTime - (currentTime + 10) : ℤ) : ℚ) / ((max 20 30 : ℤ) : ℚ)) = -1/3 := by
    norm_num [currentTime]
  have hstage : openStage (get_deal_configuration .midMarket false true).2
      (min (9/10 : ℚ)
        (((currentTime - (currentTime + 10) : ℤ) : ℚ) / ((max 20 30 : ℤ) : ℚ))) = 0 := by
    rw [hprog]
    exact openStage_neg _ _ (by norm_num)
  dsimp only
  refine ⟨hstage, ?_, ?_, rfl⟩
  · rw [hstage]
    rfl
  · rw [hstage]
    exact pyInt_eval _ (-150) (by norm_num [probTable, get_deal_configuration])

/-- A calendar date as the datetime fields the trend functions read:
year, month and day. -/
structure CalDate where
  year : ℤ
  month : ℤ
  day : ℤ
deriving DecidableEq

/-- A well-formed calendar date (months 1..12, days 1..31). -/
def validCalDate (d : CalDate) : Prop :=
  1 ≤ d.month ∧ d.month ≤ 12 ∧ 1 ≤ d.day ∧ d.day ≤ 31

/-- Chronological order on calendar dates (lexicographic on year, month,
day). -/
def calLE (a b : CalDate) : Prop :=
  a.year < b.year ∨ (a.year = b.year ∧ a.month < b.month) ∨
    (a.year = b.year ∧ a.month = b.month ∧ a.day ≤ b.day)

/-- The fixed baseline datetime(2023, 1, 1) of the trend functions. -/
def baselineDate : CalDate := ⟨2023, 1, 1⟩

/-- months_elapsed of calculate_competitive_rate:
(year - 2023) * 12 + month - 1, whole calendar months since the
baseline; the day of month is ignored. -/
def months_elapsed (d : CalDate) : ℤ :=
  (d.year - 2023) * 12 + (d.month - 1)

/-- self.base_competitive_rates. -/
def base_competitive_rates : Segment → ℚ
  | .enterprise => 3/20
  | .midMarket => 1/5
  | .smb => 1/10

/-- self.competitive_growth_rates. -/
def competitive_growth_rates : Segment → ℚ
  | .enterprise => 1/200
  | .midMarket => 1/50
  | .smb => 3/1000

/-- The max_rates cap inside calculate_competitive_rate. -/
def max_competitive_rates : Segment → ℚ
  | .enterprise => 9/20
  | .midMarket => 7/10
  | .smb => 1/4

/-- calculate_competitive_rate: base rate plus monthly growth times the
whole months elapsed since January 2023, capped at the per-segment
maximum. -/
def calculate_competitive_rate (seg : Segment) (d : CalDate) : ℚ :=
  min (base_competitive_rates seg +
        competitive_growth_rates seg * (months_elapsed d : ℚ))
    (max_competitive_rates seg)

lemma months_elapsed_mono (d1 d2 : CalDate) (h1 : validCalDate d1)
    (h2 : validCalDate d2) (hle : calLE d1 d2) :
    months_elapsed d1 ≤ months_elapsed d2 := by
  rcases h1 with ⟨hm1, hm1b, _, _⟩
  rcases h2 with ⟨hm2, hm2b, _, _⟩
  unfold months_elapsed
  rcases hle with hy | ⟨hy, hm⟩ | ⟨hy, hm, _⟩ <;> omega

/-- C7: for every segment and every pair of well-formed dates with the
first on or after the January 2023 baseline and not after the second,
the competitive-pressure rate is monotone non-decreasing, equals the
linear expression base + growth * months while that expression is at or
below the cap, and equals the cap (for both dates) once the linear
expression has reached the cap. -/
theorem C7_competitive_rate_monotone (seg : Segment) (d1 d2 : CalDate)
    (h1 : validCalDate d1) (h2 : validCalDate d2)
    (_hepoch : calLE baselineDate d1) (hle : calLE d1 d2) :
    calculate_competitive_rate seg d1 ≤ calculate_competitive_rate seg d2 ∧
    (base_competitive_rates seg +
        competitive_growth_rates seg * (months_elapsed d2 : ℚ)
        ≤ max_competitive_rates seg →
      calculate_competitive_rate seg d2
        = base_competitive_rates seg +
            competitive_growth_rates seg * (months_elapsed d2 : ℚ)) ∧
    (max_competitive_rates seg
        ≤ base_competitive_rates seg +
            competitive_growth_rates seg * (months_elapsed d1 : ℚ) →
      calculate_competitive_rate seg d1 = max_competitive_rates seg ∧
      calculate_competitive_rate seg d2 = max_competitive_rates seg) := by
  have hm := months_elapsed_mono d1 d2 h1 h2 hle
  have hmq : ((months_elapsed d1 : ℤ) : ℚ) ≤ ((months_elapsed d2 : ℤ) : ℚ) := by
    exact_mod_cast hm
  have hg : 0 ≤ competitive_growth_rates seg := by
    cases seg <;> norm_num [competitive_growth_rates]
  have hlin : base_competitive_rates seg +
      competitive_growth_rates seg * (months_elapsed d1 : ℚ)
      ≤ base_competitive_rates seg +
        competitive_growth_rates seg * (months_elapsed d2 : ℚ) := by
    have := mul_le_mul_of_nonneg_left hmq hg
    linarith
  refine ⟨min_le_min hlin le_rfl, fun hcap => min_eq_left hcap,
    fun hcap => ⟨min_eq_right hcap, min_eq_right (le_trans hcap hlin)⟩⟩

/-- Witness for C7 at concrete dates: Mid-Market, 2023-05-10 against
2024-02-01, both valid and ordered after the baseline. -/
theorem C7_competitive_rate_monotone_witness :
    validCalDate ⟨2023, 5, 10⟩ ∧ validCalDate ⟨2024, 2, 1⟩ ∧
    calLE baselineDate ⟨2023, 5, 10⟩ ∧ calLE ⟨2023, 5, 10⟩ ⟨2024, 2, 1⟩ ∧
    calculate_competitive_rate .midMarket ⟨2023, 5, 10⟩
      ≤ calculate_competitive_rate .midMarket ⟨2024, 2, 1⟩ :=
  ⟨by norm_num [validCalDate], by norm_num [validCalDate],
   by norm_num [calLE, baselineDate], by norm_num [calLE],
   (C7_competitive_rate_monotone .midMarket ⟨2023, 5, 10⟩ ⟨2024, 2, 1⟩
     (by norm_num [validCalDate]) (by norm_num [validCalDate])
     (by norm_num [calLE, baselineDate]) (by norm_num [calLE])).1⟩

/-- One discrete business event of the salesforce-mimic generator: a
start date (day number), the single stage it affects, its conversion
impact (added to 1 to give a multiplicative factor) and its velocity
multiplier. -/
structure SfEvent where
  start_date : ℤ
  affected_stage : ℕ
  conversion_impact : ℚ
  velocity_impact : ℚ

/-- Whether an event applies: the date has reached the event start date
and the stage is exactly the affected stage. -/
def eventActive (e : SfEvent) (stage : ℕ) (date : ℤ) : Bool :=
  decide (e.start_date ≤ date) && decide (stage = e.affected_stage)

/-- get_event_impact: start from (1, 1) and, for each event whose start
date has passed and whose affected stage is the given stage, multiply
the conversion modifier by (1 + conversion_impact) and the velocity
modifier by velocity_impact. -/
def get_event_impact (events : List SfEvent) (stage : ℕ) (date : ℤ) :
    ℚ × ℚ :=
  events.foldl
    (fun acc e =>
      if e.start_date ≤ date ∧ stage = e.affected_stage then
        (acc.1 * (1 + e.conversion_impact), acc.2 * e.velocity_impact)
      else acc)
    (1, 1)

/-- The event table of the source: security_process_change from
2024-04-01 (day 19814) on stage 4 (5 - Contract Review),
pricing_model_change from 2024-07-01 (day 19905) on stage 3
(4 - Negotiation), competitive_pressure from 2024-06-01 (day 19875) on
stage 1 (2 - Discovery). -/
def sfEvents : List SfEvent :=
  [⟨19814, 4, -3/20, 7/5⟩,
   ⟨19905, 3, -1/5, 13/10⟩,
   ⟨19875, 1, -1/10, 5/4⟩]

/-- The stage conversion probability of calculate_stage_progression in
the salesforce-mimic generator: the baseline rate times the win-rate and
seasonal modifiers times the event conversion modifier, clamped into
[0.1, 0.95]. -/
def sf_stage_conversion (base winSeasonal : ℚ) (events : List SfEvent)
    (stage : ℕ) (date : ℤ) : ℚ :=
  max (1/10) (min (19/20) (base * winSeasonal * (get_event_impact events stage date).1))

/-- The expected stage dwell of calculate_stage_progression in the
salesforce-mimic generator: the base per-stage time scaled by the event
velocity modifier. -/
def sf_avg_stage_time (t : ℚ) (events : List SfEvent) (stage : ℕ)
    (date : ℤ) : ℚ :=
  t * (get_event_impact events stage date).2

lemma get_event_impact_foldl (stage : ℕ) (date : ℤ) :
    ∀ (events : List SfEvent) (a b : ℚ),
      events.foldl
        (fun acc e =>
          if e.start_date ≤ date ∧ stage = e.affected_stage then
            (acc.1 * (1 + e.conversion_impact), acc.2 * e.velocity_impact)
          else acc)
        (a, b)
      = (a * ((events.filter (fun e => eventActive e stage date)).map
            (fun e => 1 + e.conversion_impact)).prod,
         b * ((events.filter (fun e => eventActive e stage date)).map
            (fun e => e.velocity_impact)).prod) := by
  intro events
  induction events with
  | nil => intro a b; simp
  | cons e es ih =>
      intro a b
      by_cases hact : e.start_date ≤ date ∧ stage = e.affected_stage
      · have hbool : eventActive e stage date = true := by
          simp [eventActive, hact.1, hact.2]
        simp only [List.foldl_cons, if_pos hact, List.filter_cons, hbool,
          if_true, List.map_cons, List.prod_cons]
        rw [ih]
        simp only [Prod.mk.injEq]
        constructor <;> ring
      · have hbool : eventActive e stage date = false := by
          rcases not_and_or.mp hact with h | h <;> simp [eventActive, h]
        simp only [List.foldl_cons, if_neg hact, List.filter_cons, hbool,
          Bool.false_eq_true, if_false]
        exact ih a b

/-- C8: the event-impact modifiers are exactly the product, over the
events whose start date has been reached and whose affected stage is the
given stage, of (1 + conversion_impact) and of velocity_impact
respectively: active events compose multiplicatively.  When no event is
active on a (stage, date) pair, both modifiers are 1, the stage
conversion probability is the unmodified clamped baseline product, and
the expected dwell time is unchanged: an event modifies a stage only
when its date gate and its stage gate both hold. -/
theorem C8_event_impacts (events : List SfEvent) (stage : ℕ) (date : ℤ)
    (base winSeasonal t : ℚ) :
    get_event_impact events stage date
      = (((events.filter (fun e => eventActive e stage date)).map
            (fun e => 1 + e.conversion_impact)).prod,
         ((events.filter (fun e => eventActive e stage date)).map
            (fun e => e.velocity_impact)).prod) ∧
    ((∀ e ∈ events, ¬ (e.start_date ≤ date ∧ stage = e.affected_stage)) →
      get_event_impact events stage date = (1, 1) ∧
      sf_stage_conversion base winSeasonal events stage date
        = max (1/10) (min (19/20) (base * winSeasonal)) ∧
      sf_avg_stage_time t events stage date = t) := by
  have hmain : get_event_impact events stage date
      = (((events.filter (fun e => eventActive e stage date)).map
            (fun e => 1 + e.conversion_impact)).prod,
         ((events.filter (fun e => eventActive e stage date)).map
            (fun e => e.velocity_impact)).prod) := by
    have := get_event_impact_foldl stage date events 1 1
    simpa [get_event_impact] using this
  refine ⟨hmain, fun hnone => ?_⟩
  have hfilter : events.filter (fun e => eventActive e stage date) = [] := by
    rw [List.filter_eq_nil_iff]
    intro e he
    have := hnone e he
    simp only [eventActive, Bool.and_eq_true, decide_eq_true_eq]
    exact fun hc => this ⟨hc.1, hc.2⟩
  have himp : get_event_impact events stage date = (1, 1) := by
    rw [hmain, hfilter]
    simp
  refine ⟨himp, ?_, ?_⟩
  · simp [sf_stage_conversion, himp]
  · simp [sf_avg_stage_time, himp]

/-- Witness for C8 at a concrete input: the event table of the source,
stage 0 on day 0 (before every event start date), where no event is
active and the modifiers are (1, 1). -/
theorem C8_event_impacts_witness :
    (∀ e ∈ sfEvents, ¬ (e.start_date ≤ 0 ∧ 0 = e.affected_stage)) ∧
    get_event_impact sfEvents 0 0 = (1, 1) ∧
    sf_avg_stage_time 7 sfEvents 0 0 = 7 := by
  have hnone : ∀ e ∈ sfEvents, ¬ (e.start_date ≤ 0 ∧ 0 = e.affected_stage) := by
    intro e he
    simp only [sfEvents, List.mem_cons, List.mem_singleton] at he
    rcases he with rfl | rfl | rfl | h
    · rintro ⟨hd, _⟩; norm_num at hd
    · rintro ⟨hd, _⟩; norm_num at hd
    · rintro ⟨hd, _⟩; norm_num at hd
    · exact absurd h (List.not_mem_nil e)
  have h := (C8_event_impacts sfEvents 0 0 1 1 7).2 hnone
  exact ⟨hnone, h.1, h.2.2⟩
